import Mathlib

/-!
Verification development for a job-analytics backend: a data-cleaning and
normalization pipeline over a table of job postings, plus aggregate query
operations (distributions, trends, fixed scenario filters) served from a
process-wide normalized table.

The Python source (app.py) is shallowly embedded: pandas DataFrames become
lists of records, numeric columns with possible NaN become Option-typed
fields, regular-expression extraction is embedded as explicit scans over
character lists, and the JSON decoder (a library call) is a parameter of
the functions that use it.
-/

/-- Whitespace class of the regex engine used by the source: space, tab,
newline, carriage return, vertical tab, form feed. -/
def pyIsSpace (c : Char) : Bool :=
  c == ' ' || c == '\t' || c == '\n' || c == '\r' || c == Char.ofNat 11 || c == Char.ofNat 12

/-- Numeric value of a digit string, as computed by int() on the matched group. -/
def digitsToNat (ds : List Char) : Nat :=
  ds.foldl (fun n c => n * 10 + (c.toNat - '0'.toNat)) 0

/-- Attempt of the pattern (digits, optional whitespace, literal lowercase
"to") anchored at the head of the character list; returns the integer of
the digit group on success.  Backtracking cannot help this pattern (a
shortened digit run or whitespace run is followed by a digit or a
whitespace character, never by 't'), so the greedy reading is exact. -/
def tryNumToAt (l : List Char) : Option Nat :=
  let ds := l.takeWhile Char.isDigit
  if ds.isEmpty then none
  else
    match (l.dropWhile Char.isDigit).dropWhile pyIsSpace with
    | 't' :: 'o' :: _ => some (digitsToNat ds)
    | _ => none

/-- Leftmost match of the pattern "<integer> to" (lowercase, as in the
source regex r'(\d+)\s*to' compiled without re.IGNORECASE): the scan tries
every start position from the left, as re.search does. -/
def matchNumTo : List Char → Option Nat
  | [] => none
  | c :: rest =>
    match tryNumToAt (c :: rest) with
    | some n => some n
    | none => matchNumTo rest

/-- Case-insensitive attempt of the same pattern, anchored at the head. -/
def tryNumToAtCI (l : List Char) : Option Nat :=
  let ds := l.takeWhile Char.isDigit
  if ds.isEmpty then none
  else
    match (l.dropWhile Char.isDigit).dropWhile pyIsSpace with
    | c1 :: c2 :: _ => if c1.toLower == 't' && c2.toLower == 'o' then some (digitsToNat ds) else none
    | _ => none

/-- Modelled from the spec: leftmost case-insensitive match of
"<integer> to", the behaviour the spec ascribes to the experience
extractor (the source compiles its regex without the case-insensitive
flag, so this differs from matchNumTo). -/
def matchNumToCI : List Char → Option Nat
  | [] => none
  | c :: rest =>
    match tryNumToAtCI (c :: rest) with
    | some n => some n
    | none => matchNumToCI rest

/-- Leftmost match of the pattern "$<integer>K" (source regex r'\$(\d+)K'):
a dollar sign, a nonempty digit run, then a literal uppercase K. -/
def matchDollarK : List Char → Option Nat
  | [] => none
  | c :: rest =>
    if c = '$' then
      let ds := rest.takeWhile Char.isDigit
      if ds.isEmpty then matchDollarK rest
      else
        match rest.dropWhile Char.isDigit with
        | 'K' :: _ => some (digitsToNat ds)
        | _ => matchDollarK rest
    else matchDollarK rest

/-- extract_min_experience from app.py: absent input gives absent; otherwise
the integer of the first match of r'(\d+)\s*to', absent when no match. -/
def extract_min_experience (experience_str : Option String) : Option Int :=
  match experience_str with
  | none => none
  | some s => (matchNumTo s.data).map Int.ofNat

/-- Modelled from the spec: the case-insensitive variant of the experience
extractor that the spec describes; used only to compare against the
source's case-sensitive behaviour. -/
def extract_min_experience_ci (experience_str : Option String) : Option Int :=
  match experience_str with
  | none => none
  | some s => (matchNumToCI s.data).map Int.ofNat

/-- extract_min_salary from app.py: absent input gives absent; otherwise
1000 times the integer of the first match of r'\$(\d+)K', absent when no
match. -/
def extract_min_salary (salary_str : Option String) : Option Int :=
  match salary_str with
  | none => none
  | some s => (matchDollarK s.data).map (fun n => (Int.ofNat n) * 1000)

/-- JSON values, the codomain of the structured decoder used by
parse_company_profile.  The decoder itself (json.loads) is library code
and enters the embedding as a function parameter. -/
inductive JsonVal where
  | jnull : JsonVal
  | jbool : Bool → JsonVal
  | jnum : Int → JsonVal
  | jstr : String → JsonVal
  | jarr : List JsonVal → JsonVal
  | jobj : List (String × JsonVal) → JsonVal

/-- The quote-collapsing pass of parse_company_profile, i.e. Python
str.replace applied to four consecutive double quotes with a single double
quote: leftmost non-overlapping occurrences, replacement text not
rescanned. -/
def collapseQuadQuotes : List Char → List Char
  | '"' :: '"' :: '"' :: '"' :: rest => '"' :: collapseQuadQuotes rest
  | c :: rest => c :: collapseQuadQuotes rest
  | [] => []

/-- The outer-quote strip of parse_company_profile: when the string both
starts and ends with a double quote, drop the first and last character. -/
def stripOuterQuote (l : List Char) : List Char :=
  if l.head? = some '"' ∧ l.getLast? = some '"' then (l.drop 1).dropLast else l

/-- parse_company_profile from app.py, with the JSON decoder abstracted as
a parameter: absent input gives the empty mapping; otherwise the input is
quote-collapsed, outer-quote-stripped and decoded, and any decode failure
gives the empty mapping. -/
def parse_company_profile (decode : List Char → Option JsonVal) (profile_str : Option String) : JsonVal :=
  match profile_str with
  | none => JsonVal.jobj []
  | some s =>
    match decode (stripOuterQuote (collapseQuadQuotes s.data)) with
    | some j => j
    | none => JsonVal.jobj []

/-- One row of the raw table, with the named raw columns the source reads:
the four semi-structured fields consumed by the extractors, and the
categorical/numeric columns consumed by the query layer.  Numeric columns
that may hold NaN are Option-typed. -/
structure RawRow where
  job_posting_date : Option String
  company_profile : Option String
  experience : Option String
  salary_range : Option String
  role : String
  job_title : String
  preference : String
  qualifications : String
  country : String
  company : String
  work_type : String
  job_portal : String
  latitude : Option Int
  company_size : Option Int
deriving DecidableEq

/-- One row of the normalized table: the raw categorical/numeric columns
plus the derived columns added by clean_and_process_data.  The
Salary_Range_Category column starts absent and is written by the salary
distribution endpoint. -/
structure NormRow where
  job_posting_date : Option Nat
  company_profile_parsed : JsonVal
  company_sector : Option JsonVal
  min_experience_years : Option Int
  min_salary_usd : Option Int
  salary_range_category : Option String
  role : String
  job_title : String
  preference : String
  qualifications : String
  country : String
  company : String
  work_type : String
  job_portal : String
  latitude : Option Int
  company_size : Option Int

/-- Column-wise traversal with fail-fast error propagation, the shape of a
pandas apply: the first row whose function application raises aborts the
whole traversal with that error. -/
def map_except (f : α → Except String β) : List α → Except String (List β)
  | [] => Except.ok []
  | a :: rest =>
    match f a with
    | Except.error e => Except.error e
    | Except.ok b =>
      match map_except f rest with
      | Except.error e => Except.error e
      | Except.ok bs => Except.ok (b :: bs)

/-- Normalization of a single row: date parsing with coercion to absent,
profile parsing, sector lookup, experience and salary extraction.  The
sector step mirrors Python attribute access x.get('Sector'): it raises
(AttributeError) when the parsed profile is not a mapping, which happens
exactly when the decoder succeeds with a non-object JSON document. -/
def process_row (pdate : String → Option Nat) (decode : List Char → Option JsonVal) (r : RawRow) : Except String NormRow :=
  match parse_company_profile decode r.company_profile with
  | JsonVal.jobj fields =>
    Except.ok
      { job_posting_date := r.job_posting_date.bind pdate
        company_profile_parsed := JsonVal.jobj fields
        company_sector := fields.lookup "Sector"
        min_experience_years := extract_min_experience r.experience
        min_salary_usd := extract_min_salary r.salary_range
        salary_range_category := none
        role := r.role
        job_title := r.job_title
        preference := r.preference
        qualifications := r.qualifications
        country := r.country
        company := r.company
        work_type := r.work_type
        job_portal := r.job_portal
        latitude := r.latitude
        company_size := r.company_size }
  | _ => Except.error "AttributeError"

/-- The successful-path value of process_row, as a pure function. -/
def norm_row (pdate : String → Option Nat) (decode : List Char → Option JsonVal) (r : RawRow) : NormRow :=
  { job_posting_date := r.job_posting_date.bind pdate
    company_profile_parsed := parse_company_profile decode r.company_profile
    company_sector :=
      match parse_company_profile decode r.company_profile with
      | JsonVal.jobj fields => fields.lookup "Sector"
      | _ => none
    min_experience_years := extract_min_experience r.experience
    min_salary_usd := extract_min_salary r.salary_range
    salary_range_category := none
    role := r.role
    job_title := r.job_title
    preference := r.preference
    qualifications := r.qualifications
    country := r.country
    company := r.company
    work_type := r.work_type
    job_portal := r.job_portal
    latitude := r.latitude
    company_size := r.company_size }

/-- A raw row is benign for the sector step when its Company Profile cell
is absent, fails to decode, or decodes to a mapping. -/
def profile_ok (decode : List Char → Option JsonVal) (r : RawRow) : Bool :=
  match r.company_profile with
  | none => true
  | some s =>
    match decode (stripOuterQuote (collapseQuadQuotes s.data)) with
    | none => true
    | some (JsonVal.jobj _) => true
    | some _ => false

/-- clean_and_process_data from app.py: an empty raw table yields an empty
normalized table, otherwise every row is normalized in order, with the
first row-level exception propagating out. -/
def clean_and_process_data (pdate : String → Option Nat) (decode : List Char → Option JsonVal) (df_raw : List RawRow) : Except String (List NormRow) :=
  if df_raw.isEmpty then Except.ok []
  else map_except (process_row pdate decode) df_raw

/-- load_data_on_startup from app.py: when the process-wide table is empty,
read the input source (csv is none when the file is missing) and process
it, keeping the table unchanged when reading or processing raises; when
the table is nonempty, do nothing. -/
def load_data_on_startup (csv : Option (List RawRow)) (pdate : String → Option Nat) (decode : List Char → Option JsonVal) (processed_df : List NormRow) : List NormRow :=
  if processed_df.isEmpty then
    match csv with
    | some df_raw =>
      match clean_and_process_data pdate decode df_raw with
      | Except.ok t => t
      | Except.error _ => processed_df
    | none => processed_df
  else processed_df

/-- First-occurrence deduplication with an accumulator of already-seen
values: the distinct values of a column in order of first appearance. -/
def dedupFirstAux [DecidableEq α] (seen : List α) : List α → List α
  | [] => []
  | x :: rest =>
    if x ∈ seen then dedupFirstAux seen rest
    else x :: dedupFirstAux (x :: seen) rest

/-- Distinct values of a list in order of first appearance. -/
def dedupFirst [DecidableEq α] (l : List α) : List α :=
  dedupFirstAux [] l

/-- Descending-count comparison on (value, count) entries. -/
def cntGE (a b : String × Nat) : Prop := b.2 ≤ a.2

instance : DecidableRel cntGE := fun a b => Nat.decLe b.2 a.2

instance : IsTotal (String × Nat) cntGE := ⟨fun a b => Nat.le_total b.2 a.2⟩

instance : IsTrans (String × Nat) cntGE := ⟨fun _ _ _ h1 h2 => Nat.le_trans h2 h1⟩

/-- value_counts on an object-dtype column: one entry per distinct value
with its number of occurrences, sorted by descending count; the stable
sort keeps tied groups in first-encountered order. -/
def value_counts (vals : List String) : List (String × Nat) :=
  List.insertionSort cntGE ((dedupFirst vals).map (fun v => (v, vals.count v)))

/-- value_counts on a categorical column produced by pd.cut: one entry per
declared category (whether observed or not) with its number of
occurrences, absent values dropped, sorted by descending count. -/
def value_counts_cat (cats : List String) (vals : List (Option String)) : List (String × Nat) :=
  List.insertionSort cntGE (cats.map (fun c => (c, vals.count (some c))))

/-- Left merge of the full label list against a distribution, filling
missing counts with zero: pandas pd.merge(full_labels_df, distribution,
how='left') followed by fillna(0).  Each label keeps its first matching
entry; the output is in the order of the label list. -/
def merge_zero_fill (labels : List String) (dist : List (String × Nat)) : List (String × Nat) :=
  labels.map (fun l => (l, (((dist.filter (fun e => e.1 == l)).head?).map Prod.snd).getD 0))

/-- The experience band labels declared by get_experience_distribution. -/
def exp_labels : List String := ["0-2 Years", "3-5 Years", "6-10 Years", "10+ Years"]

/-- pd.cut over bins [-1, 2, 5, 10, inf] with right-closed intervals, as in
get_experience_distribution: absent and out-of-bins values get no label. -/
def experience_level_category : Option Int → Option String
  | none => none
  | some n =>
    if -1 < n ∧ n ≤ 2 then some "0-2 Years"
    else if 2 < n ∧ n ≤ 5 then some "3-5 Years"
    else if 5 < n ∧ n ≤ 10 then some "6-10 Years"
    else if 10 < n then some "10+ Years"
    else none

/-- The salary band labels declared by get_salary_range_distribution. -/
def salary_labels : List String :=
  ["$0-$50K", "$50K-$75K", "$75K-$100K", "$100K-$125K", "$125K-$150K", "$150K+"]

/-- pd.cut over bins [0, 50000, 75000, 100000, 125000, 150000, inf] with
left-closed intervals, as in get_salary_range_distribution. -/
def salary_range_cut : Option Int → Option String
  | none => none
  | some n =>
    if 0 ≤ n ∧ n < 50000 then some "$0-$50K"
    else if 50000 ≤ n ∧ n < 75000 then some "$50K-$75K"
    else if 75000 ≤ n ∧ n < 100000 then some "$75K-$100K"
    else if 100000 ≤ n ∧ n < 125000 then some "$100K-$125K"
    else if 125000 ≤ n ∧ n < 150000 then some "$125K-$150K"
    else if 150000 ≤ n then some "$150K+"
    else none

/-- get_work_type_distribution from app.py: empty table gives an empty
body; otherwise the (optionally filtered) Work Type column is counted. -/
def get_work_type_distribution (work_type_filter : String) (processed_df : List NormRow) : List (String × Nat) :=
  if processed_df.isEmpty then []
  else
    let df_filtered :=
      if work_type_filter ≠ "All" then processed_df.filter (fun r => r.work_type == work_type_filter)
      else processed_df
    value_counts (df_filtered.map (fun r => r.work_type))

/-- get_qualification_distribution from app.py. -/
def get_qualification_distribution (qualification_filter : String) (processed_df : List NormRow) : List (String × Nat) :=
  if processed_df.isEmpty then []
  else
    let df_filtered :=
      if qualification_filter ≠ "All" then processed_df.filter (fun r => r.qualifications == qualification_filter)
      else processed_df
    value_counts (df_filtered.map (fun r => r.qualifications))

/-- get_experience_distribution from app.py: a transient category column is
computed on a copy of the table by pd.cut, the equality filter (when not
"All") is applied to that derived column, the categorical column is
counted, and the counts are left-merged against the full label list with
zero fill. -/
def get_experience_distribution (experience_filter : String) (processed_df : List NormRow) : List (String × Nat) :=
  if processed_df.isEmpty then []
  else
    let df_filtered := processed_df.map (fun r => (r, experience_level_category r.min_experience_years))
    let df_kept :=
      if experience_filter ≠ "All" then df_filtered.filter (fun p => p.2 == some experience_filter)
      else df_filtered
    let distribution := value_counts_cat exp_labels (df_kept.map Prod.snd)
    merge_zero_fill exp_labels distribution

/-- get_salary_range_distribution from app.py: the category column is
assigned on the shared table itself (processed_df['Salary_Range_Category']
= pd.cut(...)), so the endpoint returns both its response body and the
table as it stands after the call. -/
def get_salary_range_distribution (processed_df : List NormRow) : List (String × Nat) × List NormRow :=
  if processed_df.isEmpty then ([], processed_df)
  else
    let updated := processed_df.map (fun r => { r with salary_range_category := salary_range_cut r.min_salary_usd })
    let distribution := value_counts_cat salary_labels (updated.map (fun r => r.salary_range_category))
    (merge_zero_fill salary_labels distribution, updated)

/-- get_job_portal_distribution from app.py. -/
def get_job_portal_distribution (processed_df : List NormRow) : List (String × Nat) :=
  if processed_df.isEmpty then []
  else value_counts (processed_df.map (fun r => r.job_portal))

/-- Three-letter month names used by strftime('%b %Y'). -/
def month_abbrev : Nat → String
  | 1 => "Jan" | 2 => "Feb" | 3 => "Mar" | 4 => "Apr" | 5 => "May" | 6 => "Jun"
  | 7 => "Jul" | 8 => "Aug" | 9 => "Sep" | 10 => "Oct" | 11 => "Nov" | 12 => "Dec"
  | _ => ""

/-- Chart label of a year-month key (months are coded yyyymm). -/
def format_month (ym : Nat) : String :=
  month_abbrev (ym % 100) ++ " " ++ toString (ym / 100)

/-- get_job_postings_trend from app.py: rows with an absent date are
dropped, the remaining dates are grouped by calendar month (groupby sorts
its keys ascending), and each group is counted.  Dates are coded yyyymmdd,
so dividing by 100 is the to_period('M') projection. -/
def get_job_postings_trend (processed_df : List NormRow) : List (String × Nat) :=
  if processed_df.isEmpty then []
  else
    let months := processed_df.filterMap (fun r => r.job_posting_date.map (fun d => d / 100))
    let keys := List.insertionSort (fun a b => a ≤ b) (dedupFirst months)
    keys.map (fun ym => (format_month ym, months.count ym))

/-- get_all_job_data from app.py: an empty table signals the distinct
data-not-ready condition (an HTTP 500 with a message); otherwise the first
100 rows are returned. -/
def get_all_job_data (processed_df : List NormRow) : Except String (List NormRow) :=
  if processed_df.isEmpty then Except.error "Data not loaded or processed yet."
  else Except.ok (processed_df.take 100)

/-- The fixed 49-country Asian set shared by both scenario endpoints. -/
def asian_countries : List String :=
  ["Afghanistan", "Armenia", "Azerbaijan", "Bahrain", "Bangladesh", "Bhutan",
   "Brunei", "Cambodia", "China", "Cyprus", "Georgia", "India", "Indonesia",
   "Iran", "Iraq", "Israel", "Japan", "Jordan", "Kazakhstan", "Kuwait",
   "Kyrgyzstan", "Laos", "Lebanon", "Malaysia", "Maldives", "Mongolia",
   "Myanmar", "Nepal", "North Korea", "Oman", "Pakistan", "Palestine",
   "Philippines", "Qatar", "Russia", "Saudi Arabia", "Singapore",
   "South Korea", "Sri Lanka", "Syria", "Taiwan", "Tajikistan", "Thailand",
   "Timor-Leste", "Turkey", "Turkmenistan", "United Arab Emirates",
   "Uzbekistan", "Vietnam", "Yemen"]

/-- The row predicate of Scenario A (get_top_10_companies): comparisons on
absent numeric or date values are false, as NaN comparisons are in the
source. -/
def scenario_a_pred (r : NormRow) : Bool :=
  r.role == "Data Engineer" &&
  r.job_title == "Data Scientist" &&
  r.preference == "Female" &&
  r.qualifications == "B.Tech" &&
  !(asian_countries.contains r.country) &&
  !(r.country.startsWith "C") &&
  (match r.latitude with | some x => decide (x < 10) | none => false) &&
  (match r.job_posting_date with
   | some d => decide (20230101 ≤ d) && decide (d ≤ 20230601)
   | none => false)

/-- get_top_10_companies from app.py: the fixed Scenario A conjunction is
evaluated over the table, the empty filtered set short-circuits to an
empty response, and otherwise the ten most frequent companies of the
filtered set are returned with their counts. -/
def get_top_10_companies (processed_df : List NormRow) : List (String × Nat) :=
  if processed_df.isEmpty then []
  else
    let filtered_df := processed_df.filter scenario_a_pred
    if filtered_df.isEmpty then []
    else (value_counts (filtered_df.map (fun r => r.company))).take 10

/-- The row predicate of Scenario B (get_company_size_vs_name). -/
def scenario_b_pred (r : NormRow) : Bool :=
  (match r.company_size with | some s => decide (s < 50000) | none => false) &&
  r.job_title == "Mechanical Engineer" &&
  (match r.min_experience_years with | some e => decide (5 < e) | none => false) &&
  asian_countries.contains r.country &&
  (match r.min_salary_usd with | some m => decide (50000 < m) | none => false) &&
  (r.work_type == "Part-Time" || r.work_type == "Full-Time") &&
  r.preference == "Male" &&
  r.job_portal == "Idealist"

/-- drop_duplicates on the Company key with keep='first': the first pair
for each company survives, later pairs with the same company are dropped. -/
def dedup_by_key (seen : List String) : List (String × Option Int) → List (String × Option Int)
  | [] => []
  | p :: rest =>
    if p.1 ∈ seen then dedup_by_key seen rest
    else p :: dedup_by_key (p.1 :: seen) rest

/-- get_company_size_vs_name from app.py: the fixed Scenario B conjunction
is evaluated over the table, the empty filtered set short-circuits to an
empty response, and otherwise the (Company, Company Size) pairs of the
filtered set are deduplicated by company, first occurrence winning. -/
def get_company_size_vs_name (processed_df : List NormRow) : List (String × Option Int) :=
  if processed_df.isEmpty then []
  else
    let filtered_df := processed_df.filter scenario_b_pred
    if filtered_df.isEmpty then []
    else dedup_by_key [] (filtered_df.map (fun r => (r.company, r.company_size)))

lemma mem_dedupFirstAux [DecidableEq α] (l : List α) : ∀ (seen : List α) (c : α),
    c ∈ dedupFirstAux seen l ↔ c ∈ l ∧ c ∉ seen := by
  induction l with
  | nil => intro seen c; simp [dedupFirstAux]
  | cons x rest ih =>
    intro seen c
    simp only [dedupFirstAux]
    by_cases hx : x ∈ seen
    · rw [if_pos hx, ih]
      by_cases hcx : c = x
      · subst hcx; simp [hx]
      · simp [List.mem_cons, hcx]
    · rw [if_neg hx]
      simp only [List.mem_cons, ih, List.mem_cons]
      by_cases hcx : c = x
      · subst hcx; simp [hx]
      · simp [hcx]

lemma mem_dedupFirst [DecidableEq α] (l : List α) (c : α) :
    c ∈ dedupFirst l ↔ c ∈ l := by
  rw [dedupFirst, mem_dedupFirstAux]; simp

lemma nodup_dedupFirstAux [DecidableEq α] (l : List α) : ∀ (seen : List α),
    (dedupFirstAux seen l).Nodup := by
  induction l with
  | nil => intro seen; simp [dedupFirstAux]
  | cons x rest ih =>
    intro seen
    simp only [dedupFirstAux]
    by_cases hx : x ∈ seen
    · rw [if_pos hx]; exact ih seen
    · rw [if_neg hx]
      refine List.Nodup.cons ?_ (ih (x :: seen))
      intro hmem
      exact ((mem_dedupFirstAux rest (x :: seen) x).mp hmem).2 (List.mem_cons_self x seen)

lemma nodup_dedupFirst [DecidableEq α] (l : List α) : (dedupFirst l).Nodup :=
  nodup_dedupFirstAux l []

lemma filter_beq_nil_of_not_mem {l : List String} {a : String} (h : a ∉ l) :
    l.filter (fun c => c == a) = [] := by
  rw [List.filter_eq_nil_iff]
  intro b hb hba
  exact h (by rwa [eq_of_beq hba] at hb)

lemma filter_beq_singleton {l : List String} {a : String} (hnd : l.Nodup) (ha : a ∈ l) :
    l.filter (fun c => c == a) = [a] := by
  induction l with
  | nil => cases ha
  | cons x rest ih =>
    rcases List.nodup_cons.mp hnd with ⟨hx, hrest⟩
    by_cases hax : x = a
    · subst hax
      rw [List.filter_cons_of_pos (by simp)]
      rw [filter_beq_nil_of_not_mem hx]
    · rw [List.filter_cons_of_neg (by simp [hax])]
      refine ih hrest ?_
      rcases List.mem_cons.mp ha with h | h
      · exact absurd h.symm hax
      · exact h

/-- Net effect of counting a categorical column and left-merging against
its full category list: one entry per declared category, in declared
order, holding the number of occurrences of that category. -/
lemma merge_value_counts_cat (cats : List String) (hnd : cats.Nodup) (vals : List (Option String)) :
    merge_zero_fill cats (value_counts_cat cats vals) = cats.map (fun c => (c, vals.count (some c))) := by
  unfold merge_zero_fill value_counts_cat
  apply List.map_congr_left
  intro l hl
  have hperm : List.Perm
      ((List.insertionSort cntGE (cats.map (fun c => (c, vals.count (some c))))).filter
        (fun e => e.1 == l))
      ((cats.map (fun c => (c, vals.count (some c)))).filter (fun e => e.1 == l)) :=
    (List.perm_insertionSort cntGE _).filter _
  have hbase : (cats.map (fun c => (c, vals.count (some c)))).filter (fun e => e.1 == l)
      = (cats.filter (fun c => c == l)).map (fun c => (c, vals.count (some c))) := by
    rw [List.filter_map]
    rfl
  rw [hbase, filter_beq_singleton hnd hl] at hperm
  rw [List.perm_singleton.mp hperm]
  rfl

lemma value_counts_sorted (vals : List String) : List.Sorted cntGE (value_counts vals) :=
  List.sorted_insertionSort cntGE _

lemma mem_value_counts {vals : List String} {p : String × Nat} :
    p ∈ value_counts vals ↔ p.1 ∈ vals ∧ p.2 = vals.count p.1 := by
  unfold value_counts
  rw [(List.perm_insertionSort cntGE _).mem_iff, List.mem_map]
  constructor
  · rintro ⟨v, hv, rfl⟩
    exact ⟨(mem_dedupFirst vals v).mp hv, rfl⟩
  · rintro ⟨h1, h2⟩
    exact ⟨p.1, (mem_dedupFirst vals p.1).mpr h1, by rw [← h2]⟩

lemma dedup_by_key_map_fst (l : List (String × Option Int)) : ∀ (seen : List String),
    (dedup_by_key seen l).map Prod.fst = dedupFirstAux seen (l.map Prod.fst) := by
  induction l with
  | nil => intro seen; rfl
  | cons p rest ih =>
    intro seen
    simp only [dedup_by_key, List.map_cons, dedupFirstAux]
    by_cases hp : p.1 ∈ seen
    · rw [if_pos hp, if_pos hp, ih]
    · rw [if_neg hp, if_neg hp, List.map_cons, ih]

lemma mem_dedup_by_key (l : List (String × Option Int)) : ∀ (seen : List String) (c : String) (b : Option Int),
    (c, b) ∈ dedup_by_key seen l ↔ c ∉ seen ∧ l.find? (fun q => q.1 == c) = some (c, b) := by
  induction l with
  | nil => intro seen c b; simp [dedup_by_key]
  | cons p rest ih =>
    intro seen c b
    simp only [dedup_by_key]
    by_cases hp : p.1 ∈ seen
    · rw [if_pos hp, ih]
      by_cases hpc : p.1 = c
      · rw [List.find?_cons_of_pos _ (by simp [hpc])]
        constructor
        · rintro ⟨hc, _⟩; exact absurd (hpc ▸ hp) hc
        · rintro ⟨hc, _⟩; exact absurd (hpc ▸ hp) hc
      · rw [List.find?_cons_of_neg _ (by simp [hpc])]
    · rw [if_neg hp, List.mem_cons, ih]
      by_cases hpc : p.1 = c
      · rw [List.find?_cons_of_pos _ (by simp [hpc])]
        constructor
        · rintro (he | ⟨hc, _⟩)
          · exact ⟨hpc ▸ hp, by rw [← he]⟩
          · exact absurd (hpc ▸ List.mem_cons_self p.1 seen) hc
        · rintro ⟨hc, he⟩
          exact Or.inl (Option.some.inj he).symm
      · rw [List.find?_cons_of_neg _ (by simp [hpc])]
        constructor
        · rintro (he | ⟨hc, hf⟩)
          · exact absurd (congrArg Prod.fst he).symm hpc
          · exact ⟨fun hmem => hc (List.mem_cons_of_mem _ hmem), hf⟩
        · rintro ⟨hc, hf⟩
          refine Or.inr ⟨fun hmem => ?_, hf⟩
          rcases List.mem_cons.mp hmem with h | h
          · exact hpc h.symm
          · exact hc h

lemma matchNumTo_eq_none_of_no_digit (l : List Char) (h : ∀ c ∈ l, c.isDigit = false) :
    matchNumTo l = none := by
  induction l with
  | nil => rfl
  | cons c rest ih =>
    have hc : c.isDigit = false := h c (List.mem_cons_self c rest)
    have hr := ih (fun x hx => h x (List.mem_cons_of_mem _ hx))
    simp [matchNumTo, tryNumToAt, List.takeWhile_cons, hc, hr]

lemma matchDollarK_eq_none_of_no_dollar (l : List Char) (h : ∀ c ∈ l, ¬ c = '$') :
    matchDollarK l = none := by
  induction l with
  | nil => rfl
  | cons c rest ih =>
    have hc : ¬ c = '$' := h c (List.mem_cons_self c rest)
    have hr := ih (fun x hx => h x (List.mem_cons_of_mem _ hx))
    simp [matchDollarK, hc, hr]

/-- C3 counterexample: the claim calls the experience match case-insensitive
and the source regex r'(\d+)\s*to' is compiled without re.IGNORECASE, so
"3 To 8 Years" yields absent from the source extractor while the
case-insensitive matching described by the spec yields 3; the lowercase
example of the claim does behave as stated. -/
theorem extract_min_experience_not_case_insensitive :
    extract_min_experience (some "3 To 8 Years") = none ∧
    extract_min_experience_ci (some "3 To 8 Years") = some 3 ∧
    extract_min_experience (some "3 to 8 Years") = some 3 := by
  refine ⟨by decide, by decide, by decide⟩

/-- C3 (amended): extract_min_experience returns absent for absent input and
otherwise the integer of the first case-SENSITIVE match of
"<integer> to" (literal lowercase "to"), absent when there is no match;
extract_min_salary returns absent for absent input and otherwise 1000
times the integer of the first match of "$<integer>K"; both are total and
never raise, and inputs without the pattern (no digit at all, no dollar
sign at all, the empty string) give absent. -/
theorem extractors_amended_behaviour :
    (extract_min_experience none = none ∧ extract_min_salary none = none) ∧
    (∀ s : String, extract_min_experience (some s) = (matchNumTo s.data).map Int.ofNat) ∧
    (∀ s : String, extract_min_salary (some s) = (matchDollarK s.data).map (fun n => (Int.ofNat n) * 1000)) ∧
    (∀ s : String, (∀ c ∈ s.data, c.isDigit = false) → extract_min_experience (some s) = none) ∧
    (∀ s : String, (∀ c ∈ s.data, ¬ c = '$') → extract_min_salary (some s) = none) ∧
    (extract_min_experience (some "3 to 8 Years") = some 3 ∧
     extract_min_experience (some "3 To 8 Years") = none ∧
     extract_min_experience (some "") = none ∧
     extract_min_salary (some "$50K-$100K") = some 50000 ∧
     extract_min_salary (some "$50k") = none ∧
     extract_min_salary (some "") = none) := by
  refine ⟨⟨rfl, rfl⟩, fun s => rfl, fun s => rfl, ?_, ?_, by decide, by decide, by decide, by decide, by decide, by decide⟩
  · intro s hs
    simp [extract_min_experience, matchNumTo_eq_none_of_no_digit s.data hs]
  · intro s hs
    simp [extract_min_salary, matchDollarK_eq_none_of_no_dollar s.data hs]

/-- Witness for the amended extractor claim at a concrete malformed input. -/
theorem extractors_amended_behaviour_witness :
    (∀ c ∈ ("no digits here".data), c.isDigit = false) ∧
    extract_min_experience (some "no digits here") = none :=
  ⟨by decide, extractors_amended_behaviour.2.2.2.1 "no digits here" (by decide)⟩

/-- C4: parse_company_profile returns the empty mapping on absent input; on
present input it collapses each run of four consecutive quote characters
to one, strips one layer of surrounding quotes, and hands exactly that
string to the decoder; any decode failure yields the empty mapping and a
decode success is returned as is — the function is total and never
throws.  The two concrete conjuncts pin down the collapse and strip
passes on sample strings. -/
theorem parse_company_profile_contract (decode : List Char → Option JsonVal) (s : String) :
    parse_company_profile decode none = JsonVal.jobj [] ∧
    (decode (stripOuterQuote (collapseQuadQuotes s.data)) = none →
      parse_company_profile decode (some s) = JsonVal.jobj []) ∧
    (∀ j, decode (stripOuterQuote (collapseQuadQuotes s.data)) = some j →
      parse_company_profile decode (some s) = j) ∧
    String.mk (collapseQuadQuotes ("ab\"\"\"\"cd".data)) = "ab\"cd" ∧
    String.mk (stripOuterQuote ("\"ab\"".data)) = "ab" := by
  refine ⟨rfl, ?_, ?_, by decide, by decide⟩
  · intro h
    simp [parse_company_profile, h]
  · intro j h
    simp [parse_company_profile, h]

/-- Witness for the parse_company_profile contract: a decoder that always
fails maps a malformed profile to the empty mapping. -/
theorem parse_company_profile_contract_witness :
    ((fun _ => none : List Char → Option JsonVal) (stripOuterQuote (collapseQuadQuotes ("not json".data))) = none) ∧
    parse_company_profile (fun _ => none) (some "not json") = JsonVal.jobj [] :=
  ⟨rfl, (parse_company_profile_contract (fun _ => none) "not json").2.1 rfl⟩

/-- C9: on an empty normalized table every distribution, trend and scenario
operation returns an empty result as a success, the salary endpoint also
leaves the (empty) table untouched, and the unfiltered full-table fetch
alone signals the distinct data-not-ready condition. -/
theorem empty_table_query_behaviour :
    get_all_job_data ([] : List NormRow) = Except.error "Data not loaded or processed yet." ∧
    (∀ f, get_work_type_distribution f [] = []) ∧
    (∀ f, get_qualification_distribution f [] = []) ∧
    (∀ f, get_experience_distribution f [] = []) ∧
    get_salary_range_distribution ([] : List NormRow) = ([], []) ∧
    get_job_portal_distribution [] = [] ∧
    get_job_postings_trend [] = [] ∧
    get_top_10_companies [] = [] ∧
    get_company_size_vs_name [] = [] :=
  ⟨rfl, fun _ => rfl, fun _ => rfl, fun _ => rfl, rfl, rfl, rfl, rfl, rfl⟩

lemma map_except_ok {f : α → Except String β} {g : α → β} (l : List α)
    (h : ∀ a ∈ l, f a = Except.ok (g a)) : map_except f l = Except.ok (l.map g) := by
  induction l with
  | nil => rfl
  | cons a rest ih =>
    have ha := h a (List.mem_cons_self a rest)
    have hr := ih (fun x hx => h x (List.mem_cons_of_mem _ hx))
    simp [map_except, ha, hr]

lemma process_row_ok (pdate : String → Option Nat) (decode : List Char → Option JsonVal)
    (r : RawRow) (h : profile_ok decode r = true) :
    process_row pdate decode r = Except.ok (norm_row pdate decode r) := by
  cases hcp : r.company_profile with
  | none => simp [process_row, norm_row, parse_company_profile, hcp]
  | some s =>
    cases hd : decode (stripOuterQuote (collapseQuadQuotes s.data)) with
    | none => simp [process_row, norm_row, parse_company_profile, hcp, hd]
    | some j =>
      simp only [profile_ok, hcp, hd] at h
      cases j <;> simp_all [process_row, norm_row, parse_company_profile, hcp, hd]

/-- C5 counterexample: a raw row whose Company Profile cell decodes to the
JSON document 5 (not a mapping) makes the sector-extraction step raise an
AttributeError that propagates out of clean_and_process_data, so the
pipeline does not return a normalized table for this input.  The decoder
argument maps the preprocessed cell "5" to the JSON number 5, exactly as
json.loads does. -/
def bad_decode : List Char → Option JsonVal :=
  fun l => if l = ['5'] then some (JsonVal.jnum 5) else none

/-- A raw row whose Company Profile is the JSON document "5". -/
def bad_raw : RawRow :=
  { job_posting_date := none, company_profile := some "5", experience := none,
    salary_range := none, role := "", job_title := "", preference := "",
    qualifications := "", country := "", company := "", work_type := "",
    job_portal := "", latitude := none, company_size := none }

/-- C5 counterexample theorem: the pipeline propagates an exception instead
of producing one output row per input row. -/
theorem pipeline_raises_on_non_mapping_profile :
    clean_and_process_data (fun _ => none) bad_decode [bad_raw] = Except.error "AttributeError" := by
  rfl

/-- C5 (amended): for every raw table in which each present Company Profile
cell either fails to decode or decodes to a mapping, the pipeline
produces exactly one output row per input row in the same order, an empty
raw table yields an empty normalized table, and every derived field of
every row is a typed value or an explicit absent marker computed by the
corresponding field extractor — no exception propagates and no row is
dropped. -/
theorem pipeline_amended (pdate : String → Option Nat) (decode : List Char → Option JsonVal)
    (rows : List RawRow) (h : rows.all (profile_ok decode) = true) :
    clean_and_process_data pdate decode rows = Except.ok (rows.map (norm_row pdate decode)) ∧
    (rows.map (norm_row pdate decode)).length = rows.length ∧
    (rows = [] → clean_and_process_data pdate decode rows = Except.ok []) ∧
    (∀ r ∈ rows,
      (norm_row pdate decode r).min_experience_years = extract_min_experience r.experience ∧
      (norm_row pdate decode r).min_salary_usd = extract_min_salary r.salary_range ∧
      (norm_row pdate decode r).job_posting_date = r.job_posting_date.bind pdate ∧
      (norm_row pdate decode r).company_profile_parsed = parse_company_profile decode r.company_profile ∧
      (norm_row pdate decode r).role = r.role ∧
      (norm_row pdate decode r).company = r.company) := by
  refine ⟨?_, List.length_map _ _, ?_, ?_⟩
  · cases hrows : rows with
    | nil => rfl
    | cons a rest =>
      rw [← hrows]
      have hne : rows.isEmpty = false := by rw [hrows]; rfl
      unfold clean_and_process_data
      rw [hne]
      simp only [Bool.false_eq_true, if_false]
      exact map_except_ok rows (fun r hr =>
        process_row_ok pdate decode r (List.all_eq_true.mp h r hr))
  · intro hr; subst hr; rfl
  · intro r _
    exact ⟨rfl, rfl, rfl, rfl, rfl, rfl⟩

/-- Witness for the amended pipeline claim: a one-row raw table whose
profile cell fails to decode is normalized without error. -/
theorem pipeline_amended_witness :
    ([bad_raw].all (profile_ok (fun _ => none)) = true) ∧
    clean_and_process_data (fun _ => none) (fun _ => none) [bad_raw]
      = Except.ok ([bad_raw].map (norm_row (fun _ => none) (fun _ => none))) :=
  ⟨by decide, (pipeline_amended (fun _ => none) (fun _ => none) [bad_raw] (by decide)).1⟩

/-- C8: once the process-wide table is populated (nonempty) the load step
is a no-op, and triggering the load twice from the same input leaves
exactly the state a single trigger leaves — the build is idempotent. -/
theorem load_data_idempotent (csv : Option (List RawRow)) (pdate : String → Option Nat)
    (decode : List Char → Option JsonVal) (st : List NormRow) :
    (st ≠ [] → load_data_on_startup csv pdate decode st = st) ∧
    load_data_on_startup csv pdate decode (load_data_on_startup csv pdate decode st)
      = load_data_on_startup csv pdate decode st := by
  have hnoop : ∀ t : List NormRow, t ≠ [] → load_data_on_startup csv pdate decode t = t := by
    intro t ht
    unfold load_data_on_startup
    simp [List.isEmpty_iff, ht]
  refine ⟨hnoop st, ?_⟩
  by_cases hst : st = []
  · subst hst
    by_cases hX : load_data_on_startup csv pdate decode [] = []
    · rw [hX]; exact hX
    · exact hnoop _ hX
  · rw [hnoop st hst]; exact hnoop st hst

/-- A sample normalized row used by concrete witnesses. -/
def sampleNorm : NormRow :=
  { job_posting_date := none, company_profile_parsed := JsonVal.jobj [],
    company_sector := none, min_experience_years := none, min_salary_usd := none,
    salary_range_category := none, role := "", job_title := "", preference := "",
    qualifications := "", country := "", company := "", work_type := "",
    job_portal := "", latitude := none, company_size := none }

/-- Witness for the idempotent-load claim: with a populated one-row table
the load step does nothing. -/
theorem load_data_idempotent_witness :
    ([sampleNorm] : List NormRow) ≠ [] ∧
    load_data_on_startup none (fun _ => none) (fun _ => none) [sampleNorm] = [sampleNorm] :=
  ⟨List.cons_ne_nil _ _,
   (load_data_idempotent none (fun _ => none) (fun _ => none) [sampleNorm]).1 (List.cons_ne_nil _ _)⟩

lemma map_snd_filter_beq (x : Option String) (l : List (NormRow × Option String)) :
    (l.filter (fun e => e.2 == x)).map Prod.snd = (l.map Prod.snd).filter (fun v => v == x) := by
  induction l with
  | nil => rfl
  | cons a rest ih => by_cases hp : a.2 == x <;> simp [List.filter_cons, hp, ih]

lemma exp_dist_all (tbl : List NormRow) (h : tbl ≠ []) :
    get_experience_distribution "All" tbl
      = exp_labels.map (fun l => (l, (tbl.map (fun r => experience_level_category r.min_experience_years)).count (some l))) := by
  have hne : tbl.isEmpty = false := by simp [List.isEmpty_eq_false, h]
  simp only [get_experience_distribution, hne, Bool.false_eq_true, if_false, ne_eq,
    not_true_eq_false, List.map_map]
  exact merge_value_counts_cat _ (by decide) _

lemma sal_dist_fst (tbl : List NormRow) (h : tbl ≠ []) :
    (get_salary_range_distribution tbl).1
      = salary_labels.map (fun l => (l, (tbl.map (fun r => salary_range_cut r.min_salary_usd)).count (some l))) := by
  have hne : tbl.isEmpty = false := by simp [List.isEmpty_eq_false, h]
  simp only [get_salary_range_distribution, hne, Bool.false_eq_true, if_false, List.map_map]
  exact merge_value_counts_cat _ (by decide) _

lemma sal_dist_snd (tbl : List NormRow) (h : tbl ≠ []) :
    (get_salary_range_distribution tbl).2
      = tbl.map (fun r => { r with salary_range_category := salary_range_cut r.min_salary_usd }) := by
  have hne : tbl.isEmpty = false := by simp [List.isEmpty_eq_false, h]
  simp only [get_salary_range_distribution, hne, Bool.false_eq_true, if_false]

/-- A normalized row with three years of minimum experience. -/
def expRow3 : NormRow := { sampleNorm with min_experience_years := some 3 }

/-- A normalized row with a minimum salary of 60000. -/
def salRow : NormRow := { sampleNorm with min_salary_usd := some 60000 }

/-- C1 counterexample: on a one-row table whose row falls in the second
experience band, the distribution lists the zero-count first band before
the populated second band — the output is in declared-label order, not in
descending count order as the claim states. -/
theorem experience_distribution_not_count_sorted :
    get_experience_distribution "All" [expRow3]
      = [("0-2 Years", 0), ("3-5 Years", 1), ("6-10 Years", 0), ("10+ Years", 0)] ∧
    ¬ List.Sorted cntGE (get_experience_distribution "All" [expRow3]) :=
  ⟨by decide, by decide⟩

/-- C1 (amended): on a nonempty table the bucketed experience distribution
and the bucketed salary distribution each report every declared label
exactly once, in DECLARED-LABEL order (the left merge against the full
label set preserves that order), pairing each label with the number of
rows whose present value falls in that band; rows with absent values get
no label; the experience bands are right-closed over bins
[-1, 2, 5, 10, inf] and the salary bands left-closed over bins
[0, 50000, 75000, 100000, 125000, 150000, inf]. -/
theorem bucketed_distributions_label_order (tbl : List NormRow) (h : tbl ≠ []) :
    get_experience_distribution "All" tbl
      = exp_labels.map (fun l => (l, (tbl.map (fun r => experience_level_category r.min_experience_years)).count (some l))) ∧
    (get_salary_range_distribution tbl).1
      = salary_labels.map (fun l => (l, (tbl.map (fun r => salary_range_cut r.min_salary_usd)).count (some l))) ∧
    (get_experience_distribution "All" tbl).map Prod.fst = exp_labels ∧
    ((get_salary_range_distribution tbl).1).map Prod.fst = salary_labels ∧
    exp_labels.Nodup ∧ salary_labels.Nodup ∧
    (∀ n : Int,
      (experience_level_category (some n) = some "0-2 Years" ↔ (-1 < n ∧ n ≤ 2)) ∧
      (experience_level_category (some n) = some "3-5 Years" ↔ (2 < n ∧ n ≤ 5)) ∧
      (experience_level_category (some n) = some "6-10 Years" ↔ (5 < n ∧ n ≤ 10)) ∧
      (experience_level_category (some n) = some "10+ Years" ↔ 10 < n)) ∧
    experience_level_category none = none ∧
    (∀ n : Int,
      (salary_range_cut (some n) = some "$0-$50K" ↔ (0 ≤ n ∧ n < 50000)) ∧
      (salary_range_cut (some n) = some "$50K-$75K" ↔ (50000 ≤ n ∧ n < 75000)) ∧
      (salary_range_cut (some n) = some "$75K-$100K" ↔ (75000 ≤ n ∧ n < 100000)) ∧
      (salary_range_cut (some n) = some "$100K-$125K" ↔ (100000 ≤ n ∧ n < 125000)) ∧
      (salary_range_cut (some n) = some "$125K-$150K" ↔ (125000 ≤ n ∧ n < 150000)) ∧
      (salary_range_cut (some n) = some "$150K+" ↔ 150000 ≤ n)) ∧
    salary_range_cut none = none := by
  refine ⟨exp_dist_all tbl h, sal_dist_fst tbl h, ?_, ?_, by decide, by decide, ?_, rfl, ?_, rfl⟩
  · rw [exp_dist_all tbl h, List.map_map]; exact List.map_id _
  · rw [sal_dist_fst tbl h, List.map_map]; exact List.map_id _
  · intro n
    refine ⟨?_, ?_, ?_, ?_⟩ <;>
      constructor <;> intro hh
    all_goals
      first
      | (simp only [experience_level_category] at hh
         split_ifs at hh <;> first | assumption | exact absurd hh (by decide))
      | (simp only [experience_level_category]
         split_ifs <;> first | rfl | (exfalso; omega))
  · intro n
    refine ⟨?_, ?_, ?_, ?_, ?_, ?_⟩ <;>
      constructor <;> intro hh
    all_goals
      first
      | (simp only [salary_range_cut] at hh
         split_ifs at hh <;> first | assumption | exact absurd hh (by decide))
      | (simp only [salary_range_cut]
         split_ifs <;> first | rfl | (exfalso; omega))

/-- Witness for the amended bucketing claim on a one-row table. -/
theorem bucketed_distributions_label_order_witness :
    ([expRow3] : List NormRow) ≠ [] ∧
    get_experience_distribution "All" [expRow3]
      = exp_labels.map (fun l => (l, ([expRow3].map (fun r => experience_level_category r.min_experience_years)).count (some l))) :=
  ⟨List.cons_ne_nil _ _, (bucketed_distributions_label_order [expRow3] (List.cons_ne_nil _ _)).1⟩

/-- C2 counterexample: calling the salary distribution on a one-row table
changes the shared table — the row's Salary_Range_Category column is
written in place, so the table is not identical before and after the
call. -/
theorem salary_endpoint_mutates_shared_table :
    (get_salary_range_distribution [salRow]).2 ≠ [salRow] := by
  intro hcontra
  exact absurd (congrArg (List.map (fun r => r.salary_range_category)) hcontra) (by decide)

/-- C2 (amended): the salary distribution is the one query operation that
writes to the shared table: it assigns the Salary_Range_Category column
(recomputed from Min Salary USD) on the table itself, leaves every other
column of every row unchanged, and the assignment is idempotent — a
second call leaves the table exactly as the first left it. -/
theorem salary_mutation_shape (tbl : List NormRow) (h : tbl ≠ []) :
    (get_salary_range_distribution tbl).2
      = tbl.map (fun r => { r with salary_range_category := salary_range_cut r.min_salary_usd }) ∧
    (get_salary_range_distribution tbl).2.map (fun r => { r with salary_range_category := (none : Option String) })
      = tbl.map (fun r => { r with salary_range_category := (none : Option String) }) ∧
    (get_salary_range_distribution ((get_salary_range_distribution tbl).2)).2
      = (get_salary_range_distribution tbl).2 := by
  have h2 : tbl.map (fun r => { r with salary_range_category := salary_range_cut r.min_salary_usd }) ≠ [] := by
    simp [List.map_eq_nil_iff, h]
  refine ⟨sal_dist_snd tbl h, ?_, ?_⟩
  · rw [sal_dist_snd tbl h, List.map_map]; rfl
  · rw [sal_dist_snd tbl h, sal_dist_snd _ h2, List.map_map]; rfl

/-- Witness for the salary mutation-shape claim on a one-row table. -/
theorem salary_mutation_shape_witness :
    ([salRow] : List NormRow) ≠ [] ∧
    (get_salary_range_distribution [salRow]).2
      = [salRow].map (fun r => { r with salary_range_category := salary_range_cut r.min_salary_usd }) :=
  ⟨List.cons_ne_nil _ _, (salary_mutation_shape [salRow] (List.cons_ne_nil _ _)).1⟩

/-- C10: with any filter value other than "All", the experience
distribution filters on the derived experience-band label and still
reports all four declared labels in declared order: the label equal to
the filter carries the count of rows whose derived band equals the
filter, every other label carries count zero — so a filter value matching
no rows yields four zero-count entries, not an empty list. -/
theorem filtered_experience_distribution_zero_fill (f : String) (tbl : List NormRow)
    (hf : f ≠ "All") (h : tbl ≠ []) :
    get_experience_distribution f tbl
      = exp_labels.map (fun l =>
          (l, if l = f
              then (tbl.map (fun r => experience_level_category r.min_experience_years)).count (some f)
              else 0)) := by
  have hne : tbl.isEmpty = false := by simp [List.isEmpty_eq_false, h]
  simp only [get_experience_distribution, hne, Bool.false_eq_true, if_false, ne_eq, hf,
    not_false_eq_true, if_true]
  rw [map_snd_filter_beq, List.map_map]
  rw [merge_value_counts_cat _ (by decide)]
  apply List.map_congr_left
  intro l _
  by_cases hlf : l = f
  · subst hlf
    rw [if_pos rfl, List.count_filter (by simp)]
    rfl
  · rw [if_neg hlf]
    simp only [Prod.mk.injEq, true_and]
    rw [List.count_eq_zero]
    intro hmem
    rcases List.mem_filter.mp hmem with ⟨_, hbeq⟩
    exact hlf (by simpa using hbeq)

/-- Witness for the filtered experience distribution claim: a filter value
that is a declared label matching one row. -/
theorem filtered_experience_distribution_zero_fill_witness :
    ("3-5 Years" : String) ≠ "All" ∧ ([expRow3] : List NormRow) ≠ [] ∧
    get_experience_distribution "3-5 Years" [expRow3]
      = exp_labels.map (fun l =>
          (l, if l = "3-5 Years"
              then ([expRow3].map (fun r => experience_level_category r.min_experience_years)).count (some "3-5 Years")
              else 0)) :=
  ⟨by decide, List.cons_ne_nil _ _,
   filtered_experience_distribution_zero_fill "3-5 Years" [expRow3] (by decide) (List.cons_ne_nil _ _)⟩

lemma scenario_a_pred_iff (r : NormRow) :
    scenario_a_pred r = true ↔
      (r.role = "Data Engineer" ∧ r.job_title = "Data Scientist" ∧ r.preference = "Female" ∧
       r.qualifications = "B.Tech" ∧ r.country ∉ asian_countries ∧ r.country.startsWith "C" = false ∧
       (∃ x, r.latitude = some x ∧ x < 10) ∧
       (∃ d, r.job_posting_date = some d ∧ 20230101 ≤ d ∧ d ≤ 20230601)) := by
  unfold scenario_a_pred
  cases hl : r.latitude <;> cases hd : r.job_posting_date <;>
    simp [Bool.and_eq_true, decide_eq_true_iff, Bool.not_eq_true', and_assoc]

lemma scenario_b_pred_iff (r : NormRow) :
    scenario_b_pred r = true ↔
      ((∃ s, r.company_size = some s ∧ s < 50000) ∧ r.job_title = "Mechanical Engineer" ∧
       (∃ e, r.min_experience_years = some e ∧ 5 < e) ∧ r.country ∈ asian_countries ∧
       (∃ m, r.min_salary_usd = some m ∧ 50000 < m) ∧
       (r.work_type = "Part-Time" ∨ r.work_type = "Full-Time") ∧
       r.preference = "Male" ∧ r.job_portal = "Idealist") := by
  unfold scenario_b_pred
  cases hcs : r.company_size <;> cases he : r.min_experience_years <;> cases hm : r.min_salary_usd <;>
    simp [Bool.and_eq_true, decide_eq_true_iff, Bool.or_eq_true, and_assoc]

lemma sorted_take_value_counts (vals : List String) (n : Nat) :
    List.Sorted cntGE ((value_counts vals).take n) :=
  List.Pairwise.sublist (List.take_sublist n _) (value_counts_sorted vals)

lemma take_value_counts_complete (vals : List String) (n : Nat) :
    ∀ q ∈ value_counts vals, q ∉ (value_counts vals).take n →
      ∀ p ∈ (value_counts vals).take n, q.2 ≤ p.2 := by
  intro q hq hqn p hp
  have hsplit := List.take_append_drop n (value_counts vals)
  have hq2 : q ∈ (value_counts vals).take n ++ (value_counts vals).drop n := by
    rw [hsplit]; exact hq
  rcases List.mem_append.mp hq2 with hmem | hmem
  · exact absurd hmem hqn
  · have hpw : List.Pairwise cntGE ((value_counts vals).take n ++ (value_counts vals).drop n) := by
      rw [hsplit]; exact value_counts_sorted vals
    exact (List.pairwise_append.mp hpw).2.2 p hp q hmem

/-- C6 counterexample: the fixed Asian country set used by Scenario A has
50 pairwise-distinct members, not 49 as the claim states. -/
theorem scenario_a_country_set_has_50 :
    asian_countries.Nodup ∧ asian_countries.length = 50 ∧ ¬ (asian_countries.length = 49) :=
  ⟨by decide, by decide, by decide⟩

/-- C6 (amended): a row is in Scenario A's filtered set iff Role = 'Data
Engineer', Job Title = 'Data Scientist', Preference = 'Female',
Qualifications = 'B.Tech', Country outside the fixed 50-country Asian
set, Country not starting with 'C', latitude present and below 10, and a
present posting date inside the inclusive range [2023-01-01, 2023-06-01];
the output is at most ten (company, count) pairs in descending count
order, each pairing a company of the filtered set with its row count, and
every company of the filtered set that is left out has a count no larger
than any reported one; an empty filtered set yields an empty result. -/
theorem top10_scenario_a (tbl : List NormRow) :
    (asian_countries.Nodup ∧ asian_countries.length = 50) ∧
    (∀ r : NormRow, r ∈ tbl.filter scenario_a_pred ↔ r ∈ tbl ∧
      (r.role = "Data Engineer" ∧ r.job_title = "Data Scientist" ∧ r.preference = "Female" ∧
       r.qualifications = "B.Tech" ∧ r.country ∉ asian_countries ∧ r.country.startsWith "C" = false ∧
       (∃ x, r.latitude = some x ∧ x < 10) ∧
       (∃ d, r.job_posting_date = some d ∧ 20230101 ≤ d ∧ d ≤ 20230601))) ∧
    (tbl.filter scenario_a_pred = [] → get_top_10_companies tbl = []) ∧
    (get_top_10_companies tbl).length ≤ 10 ∧
    List.Sorted cntGE (get_top_10_companies tbl) ∧
    (∀ p ∈ get_top_10_companies tbl,
      p.1 ∈ (tbl.filter scenario_a_pred).map (fun r => r.company) ∧
      p.2 = ((tbl.filter scenario_a_pred).map (fun r => r.company)).count p.1) ∧
    (∀ q ∈ value_counts ((tbl.filter scenario_a_pred).map (fun r => r.company)),
      q ∉ get_top_10_companies tbl → ∀ p ∈ get_top_10_companies tbl, q.2 ≤ p.2) := by
  have hout : get_top_10_companies tbl = [] ∨
      get_top_10_companies tbl
        = (value_counts ((tbl.filter scenario_a_pred).map (fun r => r.company))).take 10 := by
    unfold get_top_10_companies
    by_cases h1 : tbl.isEmpty
    · left; simp [h1]
    · by_cases h2 : (tbl.filter scenario_a_pred).isEmpty
      · left; simp [h1, h2]
      · right; simp [h1, h2]
  refine ⟨⟨by decide, by decide⟩, ?_, ?_, ?_, ?_, ?_, ?_⟩
  · intro r; rw [List.mem_filter, scenario_a_pred_iff]
  · intro hF; simp [get_top_10_companies, hF]
  · rcases hout with h | h
    · rw [h]; simp
    · rw [h]; exact List.length_take_le _ _
  · rcases hout with h | h
    · rw [h]; exact List.sorted_nil
    · rw [h]; exact sorted_take_value_counts _ 10
  · intro p hp
    rcases hout with h | h
    · rw [h] at hp; cases hp
    · rw [h] at hp
      have hm := List.take_subset _ _ hp
      exact (mem_value_counts.mp hm).imp id (fun h2 => h2)
  · intro q hq hqn p hp
    rcases hout with h | h
    · rw [h] at hp; cases hp
    · rw [h] at hp hqn
      exact take_value_counts_complete _ 10 q hq hqn p hp

/-- Witness for the Scenario A claim: a one-row table matching none of the
predicates yields an empty result. -/
theorem top10_scenario_a_witness :
    (([sampleNorm] : List NormRow).filter scenario_a_pred = []) ∧
    get_top_10_companies [sampleNorm] = [] :=
  ⟨rfl, (top10_scenario_a [sampleNorm]).2.2.1 rfl⟩

/-- C7 counterexample: the fixed Asian country set used by Scenario B has
50 distinct members (card of its underlying finite set), not 49 as the
claim states. -/
theorem scenario_b_country_set_has_50 :
    asian_countries.toFinset.card = 50 ∧ ¬ (asian_countries.toFinset.card = 49) := by
  constructor <;> decide

/-- C7 (amended): a row is in Scenario B's filtered set iff CompanySize is
present and below 50000, Job Title = 'Mechanical Engineer',
MinExperienceYears present and above 5, Country inside the fixed
50-country Asian set, MinSalaryUSD present and above 50000, WorkType
'Part-Time' or 'Full-Time', Preference = 'Male' and JobPortal =
'Idealist'; the output pairs each company of the filtered set with the
CompanySize of its first occurrence (first occurrence wins), each company
exactly once, and an empty filtered set yields an empty result. -/
theorem company_size_scenario_b (tbl : List NormRow) :
    (asian_countries.toFinset.card = 50) ∧
    (∀ r : NormRow, r ∈ tbl.filter scenario_b_pred ↔ r ∈ tbl ∧
      ((∃ s, r.company_size = some s ∧ s < 50000) ∧ r.job_title = "Mechanical Engineer" ∧
       (∃ e, r.min_experience_years = some e ∧ 5 < e) ∧ r.country ∈ asian_countries ∧
       (∃ m, r.min_salary_usd = some m ∧ 50000 < m) ∧
       (r.work_type = "Part-Time" ∨ r.work_type = "Full-Time") ∧
       r.preference = "Male" ∧ r.job_portal = "Idealist")) ∧
    (tbl.filter scenario_b_pred = [] → get_company_size_vs_name tbl = []) ∧
    (∀ c s, (c, s) ∈ get_company_size_vs_name tbl ↔
      ((tbl.filter scenario_b_pred).map (fun r => (r.company, r.company_size))).find? (fun q => q.1 == c)
        = some (c, s)) ∧
    ((get_company_size_vs_name tbl).map Prod.fst).Nodup ∧
    (∀ c, c ∈ (get_company_size_vs_name tbl).map Prod.fst ↔
      c ∈ (tbl.filter scenario_b_pred).map (fun r => r.company)) := by
  have hmfst : ((tbl.filter scenario_b_pred).map (fun r => (r.company, r.company_size))).map Prod.fst
      = (tbl.filter scenario_b_pred).map (fun r => r.company) := by
    rw [List.map_map]; rfl
  have hout : (get_company_size_vs_name tbl = [] ∧
        (tbl.filter scenario_b_pred).map (fun r => (r.company, r.company_size)) = []) ∨
      get_company_size_vs_name tbl
        = dedup_by_key [] ((tbl.filter scenario_b_pred).map (fun r => (r.company, r.company_size))) := by
    unfold get_company_size_vs_name
    by_cases h1 : tbl.isEmpty
    · left
      have ht : tbl = [] := List.isEmpty_iff.mp h1
      subst ht
      exact ⟨by simp, rfl⟩
    · by_cases h2 : (tbl.filter scenario_b_pred).isEmpty
      · left
        have hF : tbl.filter scenario_b_pred = [] := List.isEmpty_iff.mp h2
        constructor
        · simp [h1, h2]
        · rw [hF]; rfl
      · right; simp [h1, h2]
  refine ⟨by decide, ?_, ?_, ?_, ?_, ?_⟩
  · intro r; rw [List.mem_filter, scenario_b_pred_iff]
  · intro hF; simp [get_company_size_vs_name, hF]
  · intro c s
    rcases hout with ⟨ho, hp⟩ | ho
    · rw [ho, hp]; simp
    · rw [ho, mem_dedup_by_key]; simp
  · rcases hout with ⟨ho, _⟩ | ho
    · rw [ho]; simp
    · rw [ho, dedup_by_key_map_fst]
      exact nodup_dedupFirstAux _ _
  · intro c
    rcases hout with ⟨ho, hp⟩ | ho
    · rw [ho]
      have hF : (tbl.filter scenario_b_pred).map (fun r => r.company) = [] := by
        rw [← hmfst, hp]; rfl
      rw [hF]; simp
    · rw [ho, dedup_by_key_map_fst, mem_dedupFirstAux, hmfst]
      simp

/-- Witness for the Scenario B claim: a one-row table matching none of the
predicates yields an empty result. -/
theorem company_size_scenario_b_witness :
    (([sampleNorm] : List NormRow).filter scenario_b_pred = []) ∧
    get_company_size_vs_name [sampleNorm] = [] :=
  ⟨rfl, (company_size_scenario_b [sampleNorm]).2.2.1 rfl⟩
